import Mathlib

/-!
Verification of the cyber-mysql-openai core pipeline.

JavaScript strings are modelled as lists of UTF-16 code units (`List Nat`),
matching `charCodeAt` semantics.  All functions are shallow embeddings of the
TypeScript source: `src/cache/memoryCache.ts` (key normalization, hashing,
TTL, eviction), `src/utils/sqlCleaner.ts` (`cleanSqlResponse`),
`src/utils/queryValidator.ts` (`validateQuery`), `src/db/index.ts`
(`executeReadOnlyQuery` guard), and `src/agent/cyberMySQLOpenAI.ts`
(`query`, `reflectAndFix`, `executeSQL`).  External collaborators (the
completion service, the database client, the response formatter) are passed
in as oracle functions.  Scanning functions that consume more than one
character per step carry a fuel argument seeded with the input length; since
every step consumes at least one character, the fuel never runs out and the
fallback branches are unreachable.
-/

namespace CyberMySQL

/-- A JavaScript string: its sequence of UTF-16 code units. -/
abbrev Str := List Nat

/-- Code units of a Lean string literal (all literals used here are BMP). -/
def str (s : String) : Str := s.toList.map (fun c => c.toNat)

/-- JS whitespace class \s, restricted to the code units that occur here. -/
def isWsN (c : Nat) : Bool := decide (c = 32 ∨ c = 9 ∨ c = 10 ∨ c = 13 ∨ c = 11 ∨ c = 12)

/-- JS digit class \d. -/
def isDigitN (c : Nat) : Bool := decide (48 ≤ c ∧ c ≤ 57)

/-- JS word-character class \w. -/
def isWordN (c : Nat) : Bool :=
  decide ((65 ≤ c ∧ c ≤ 90) ∨ (97 ≤ c ∧ c ≤ 122) ∨ (48 ≤ c ∧ c ≤ 57) ∨ c = 95)

/-- The punctuation class removed by the cache normalizer. -/
def isPunctN (c : Nat) : Bool := decide (c = 191 ∨ c = 63 ∨ c = 161 ∨ c = 33 ∨ c = 46)

/-- String.prototype.toLowerCase restricted to Latin-1 letters. -/
def jsToLower (c : Nat) : Nat :=
  if (65 ≤ c ∧ c ≤ 90) ∨ (192 ≤ c ∧ c ≤ 222 ∧ c ≠ 215) then c + 32 else c

/-- String.prototype.toUpperCase restricted to Latin-1 letters. -/
def jsToUpper (c : Nat) : Nat :=
  if (97 ≤ c ∧ c ≤ 122) ∨ (224 ≤ c ∧ c ≤ 254 ∧ c ≠ 247) then c - 32 else c

/-- Collapses every digit to 48; two strings with the same image differ only
in the values of digits, not in their positions. -/
def shapeN (c : Nat) : Nat := if 48 ≤ c ∧ c ≤ 57 then 48 else c

/-- Drop leading whitespace. -/
def ltrim (l : Str) : Str := l.dropWhile isWsN

/-- Drop trailing whitespace. -/
def rtrim (l : Str) : Str := (l.reverse.dropWhile isWsN).reverse

/-- String.prototype.trim. -/
def jsTrim (l : Str) : Str := rtrim (ltrim l)

/-- Scanner for replace of \s+ by a single space; the flag records whether the
previous character was whitespace (its space has already been emitted). -/
def collapseGo : Bool → Str → Str
  | _, [] => []
  | prevWs, c :: rest =>
    if isWsN c then
      if prevWs then collapseGo true rest else 32 :: collapseGo true rest
    else c :: collapseGo false rest

/-- replace of \s+ by a single space, globally. -/
def collapseWs (l : Str) : Str := collapseGo false l

/-- Global removal of the punctuation class. -/
def removePunct (l : Str) : Str := l.filter (fun c => !isPunctN c)

/-- Tries the date regex shape (four digits, dash, two digits, dash, two
digits) at the head; on a match returns the rest of the input. -/
def dateTry : Str → Option Str
  | d1 :: d2 :: d3 :: d4 :: h1 :: d5 :: d6 :: h2 :: d7 :: d8 :: rest =>
    if isDigitN d1 && isDigitN d2 && isDigitN d3 && isDigitN d4 &&
       decide (h1 = 45) && isDigitN d5 && isDigitN d6 && decide (h2 = 45) &&
       isDigitN d7 && isDigitN d8 then some rest else none
  | _ => none

/-- Global replacement of date-shaped substrings by the token DATE.  The fuel
is seeded with the input length; each step consumes at least one character. -/
def dateGo : Nat → Str → Str
  | _, [] => []
  | 0, l => l
  | fuel + 1, c :: rest =>
    match dateTry (c :: rest) with
    | some rest2 => 68 :: 65 :: 84 :: 69 :: dateGo fuel rest2
    | none => c :: dateGo fuel rest

/-- Global date replacement at the seeded fuel. -/
def dateRep (l : Str) : Str := dateGo l.length l

/-- Global replacement of digit runs by the token NUM; the flag records
whether the scanner is inside a run whose token was already emitted. -/
def numGo : Bool → Str → Str
  | _, [] => []
  | inRun, c :: rest =>
    if isDigitN c then
      if inRun then numGo true rest else 78 :: 85 :: 77 :: numGo true rest
    else c :: numGo false rest

/-- The question normalization of MemoryCache.generateKey: lowercase, trim,
collapse whitespace runs, remove punctuation, replace dates, replace digit
runs. -/
def normalizePrompt (p : Str) : Str :=
  numGo false (dateRep (removePunct (collapseWs (jsTrim (p.map jsToLower)))))

/-- Wrap an integer to the signed 32-bit range, as JS bitwise operators do. -/
def int32 (x : Int) : Int := (x + 2 ^ 31) % 2 ^ 32 - 2 ^ 31

/-- One step of hashString: hash = ((hash << 5) - hash) + code; hash &= hash. -/
def hashStep (h : Int) (c : Nat) : Int := int32 (int32 (h * 32) - h + c)

/-- MemoryCache.hashString. -/
def hashString (l : Str) : Int := l.foldl hashStep 0

/-- Digit character for Number.prototype.toString in base 36. -/
def digit36 (n : Nat) : Nat := if n < 10 then 48 + n else 87 + n

/-- Base-36 rendering loop; fuel seeded with the number itself. -/
def toBase36Go : Nat → Nat → Str → Str
  | _, 0, acc => acc
  | 0, _, acc => acc
  | fuel + 1, m + 1, acc => toBase36Go fuel ((m + 1) / 36) (digit36 ((m + 1) % 36) :: acc)

/-- Number.prototype.toString in base 36 for a natural number. -/
def toBase36 (n : Nat) : Str := if n = 0 then [48] else toBase36Go n n []

/-- MemoryCache.generateKey: hash of the normalized question, the language
and the schema hash joined by underscores. -/
def generateKey (prompt language schemaHash : Str) : Str :=
  toBase36 (hashString (normalizePrompt prompt)).natAbs ++ 95 :: language ++ 95 :: schemaHash

/-- A database row: a mapping from column names to rendered values. -/
abbrev Row := List (Str × Str)

/-- MemoryCache CacheEntry. -/
structure CacheEntry where
  sql : Str
  results : List Row
  naturalResponse : Str
  timestamp : Nat
  ttl : Nat
  language : Str
  executionTime : Nat
deriving DecidableEq

/-- The MemoryCache state: an insertion-ordered map plus statistics. -/
structure MemoryCache where
  entries : List (Str × CacheEntry)
  hits : Nat
  misses : Nat
  maxSize : Nat
  enabled : Bool
deriving DecidableEq

/-- Map.prototype.get on the insertion-ordered association list. -/
def mapGet (m : List (Str × CacheEntry)) (k : Str) : Option CacheEntry :=
  (m.find? (fun p => p.1 = k)).map (fun p => p.2)

/-- Map.prototype.set: replace in place when the key exists, else append. -/
def mapSet (m : List (Str × CacheEntry)) (k : Str) (v : CacheEntry) :
    List (Str × CacheEntry) :=
  match m with
  | [] => [(k, v)]
  | (k2, v2) :: rest => if k2 = k then (k, v) :: rest else (k2, v2) :: mapSet rest k v

/-- Map.prototype.delete. -/
def mapDelete (m : List (Str × CacheEntry)) (k : Str) : List (Str × CacheEntry) :=
  match m with
  | [] => []
  | (k2, v2) :: rest => if k2 = k then rest else (k2, v2) :: mapDelete rest k

/-- The fold inside evictOldest, carrying (oldestKey, oldestTime); the state
is updated only on a strictly smaller timestamp. -/
def evictFold : List (Str × CacheEntry) → Option Str × Nat → Option Str × Nat
  | [], st => st
  | (k, e) :: rest, (bk, bt) =>
    evictFold rest (if e.timestamp < bt then (some k, e.timestamp) else (bk, bt))

/-- The key evictOldest would delete; oldestTime starts at the current time. -/
def evictOldestKey (m : List (Str × CacheEntry)) (now : Nat) : Option Str :=
  (evictFold m (none, now)).1

/-- MemoryCache.evictOldest. -/
def evictOldest (c : MemoryCache) (now : Nat) : MemoryCache :=
  match evictOldestKey c.entries now with
  | none => c
  | some k => { c with entries := mapDelete c.entries k }

/-- Substring test, as String.prototype.includes. -/
def containsStr (hay needle : Str) : Bool :=
  match hay with
  | [] => needle.isPrefixOf ([] : Str)
  | _ :: rest => needle.isPrefixOf hay || containsStr rest needle

/-- MemoryCache.getTTLByQueryType. -/
def getTTL (sql : Str) : Nat :=
  let u := sql.map jsToUpper
  if containsStr u (str ("SHOW TABLES")) || containsStr u (str ("DESCRIBE")) ||
     containsStr u (str ("INFORMATION_SCHEMA")) then 3600000
  else if containsStr u (str ("COUNT(")) || containsStr u (str ("SUM(")) ||
     containsStr u (str ("AVG(")) || containsStr u (str ("GROUP BY")) then 900000
  else 300000

/-- MemoryCache.get at an explicit current time; returns the looked-up entry
(or none) together with the updated cache state. -/
def cacheGet (c : MemoryCache) (now : Nat) (prompt language schemaHash : Str) :
    Option CacheEntry × MemoryCache :=
  if ¬ c.enabled then (none, c) else
  let key := generateKey prompt language schemaHash
  match mapGet c.entries key with
  | none => (none, { c with misses := c.misses + 1 })
  | some e =>
    if now - e.timestamp > e.ttl then
      (none, { c with entries := mapDelete c.entries key, misses := c.misses + 1 })
    else (some e, { c with hits := c.hits + 1 })

/-- MemoryCache.set at an explicit current time. -/
def cacheSet (c : MemoryCache) (now : Nat) (prompt language schemaHash sql : Str)
    (results : List Row) (naturalResponse : Str) (executionTime : Nat) : MemoryCache :=
  if ¬ c.enabled then c else
  let key := generateKey prompt language schemaHash
  let ttl := getTTL sql
  let c1 := if c.entries.length ≥ c.maxSize then evictOldest c now else c
  { c1 with entries := (mapSet c1.entries key
      ⟨sql, results, naturalResponse, now, ttl, language, executionTime⟩) }

/-- One store operation against the cache, with its wall-clock time. -/
structure SetOp where
  prompt : Str
  language : Str
  schemaHash : Str
  sql : Str
  results : List Row
  naturalResponse : Str
  executionTime : Nat
  now : Nat
deriving DecidableEq

/-- The key a store operation writes under. -/
def opKey (op : SetOp) : Str := generateKey op.prompt op.language op.schemaHash

/-- The entry a store operation writes. -/
def opEntry (op : SetOp) : CacheEntry :=
  ⟨op.sql, op.results, op.naturalResponse, op.now, getTTL op.sql, op.language,
    op.executionTime⟩

/-- Apply one store operation. -/
def applyOp (c : MemoryCache) (op : SetOp) : MemoryCache :=
  cacheSet c op.now op.prompt op.language op.schemaHash op.sql op.results
    op.naturalResponse op.executionTime

/-- Apply a sequence of store operations in order. -/
def runSets (c : MemoryCache) (ops : List SetOp) : MemoryCache := ops.foldl applyOp c

/-- Generic model of a global regex replace with an empty replacement: at
each position try the matcher (which returns the rest of the input after a
match); on failure emit one character and advance.  Fuel is seeded with the
input length; every matcher used here consumes at least one character. -/
def scanGo (m : Str → Option Str) : Nat → Str → Str
  | _, [] => []
  | 0, l => l
  | fuel + 1, c :: rest =>
    match m (c :: rest) with
    | some rest2 => scanGo m fuel rest2
    | none => c :: scanGo m fuel rest

/-- Global replace-with-empty at the seeded fuel. -/
def scan (m : Str → Option Str) (l : Str) : Str := scanGo m l.length l

/-- Case-insensitive literal prefix match (the pattern is given lowercase);
returns the rest of the input after the pattern. -/
def stripPrefixCI : Str → Str → Option Str
  | [], l => some l
  | _, [] => none
  | p :: ps, c :: cs => if jsToLower c = p then stripPrefixCI ps cs else none

/-- Matcher for a fenced code block opener with a language tag: three
backticks, optional whitespace, the tag (case-insensitively), optional
whitespace. -/
def fenceLangMatcher (tag : Str) (l : Str) : Option Str :=
  match l with
  | 96 :: 96 :: 96 :: rest =>
    match stripPrefixCI tag (rest.dropWhile isWsN) with
    | some r2 => some (r2.dropWhile isWsN)
    | none => none
  | _ => none

/-- Splits a string at its last newline: some (before, after) with the
newline belonging to neither part and the after part newline-free. -/
def lastNlSplit : Str → Option (Str × Str)
  | [] => none
  | c :: rest =>
    match lastNlSplit rest with
    | some (w1, w2) => some (c :: w1, w2)
    | none => if c = 10 then some (([] : Str), rest) else none

/-- Matcher for three backticks followed by whitespace up to an end of line
(the multiline anchored alternative of the fence-at-end-of-line regex); the
greedy whitespace run backtracks to the last contained newline. -/
def fenceEOLMatcher (l : Str) : Option Str :=
  match l with
  | 96 :: 96 :: 96 :: rest =>
    let ws := rest.takeWhile isWsN
    let r2 := rest.dropWhile isWsN
    if r2 = [] then some ([] : Str)
    else
      match lastNlSplit ws with
      | some (_, w2) => some (10 :: (w2 ++ r2))
      | none => none
  | _ => none

/-- Matcher for any remaining triple backtick. -/
def tripleBacktickMatcher (l : Str) : Option Str :=
  match l with
  | 96 :: 96 :: 96 :: rest => some rest
  | _ => none

/-- Matcher for a single-line SQL comment: two dashes up to the end of the
line (the newline itself is not consumed). -/
def lineCommentMatcher (l : Str) : Option Str :=
  match l with
  | 45 :: 45 :: rest => some (rest.dropWhile (fun c => ¬ c = 10))
  | _ => none

/-- Finds the first block-comment closer, returning the rest after it. -/
def findClose : Str → Option Str
  | 42 :: 47 :: rest => some rest
  | _ :: rest => findClose rest
  | [] => none

/-- Matcher for a lazy multiline SQL comment. -/
def blockCommentMatcher (l : Str) : Option Str :=
  match l with
  | 47 :: 42 :: rest => findClose rest
  | _ => none

/-- String.prototype.split on the newline character. -/
def splitNl : Str → List Str
  | [] => [([] : Str)]
  | c :: rest =>
    if c = 10 then ([] : Str) :: splitNl rest
    else
      match splitNl rest with
      | [] => [[c]]
      | l :: ls => (c :: l) :: ls

/-- Array.prototype.join on the newline character. -/
def joinNl : List Str → Str
  | [] => []
  | [l] => l
  | l :: ls => l ++ 10 :: joinNl ls

/-- Apply a rewrite to every line of a string. -/
def mapLines (f : Str → Str) (l : Str) : Str := joinNl ((splitNl l).map f)

/-- The explanatory lead-in phrases removed by cleanSqlResponse, lowercase. -/
def phrases : List Str :=
  [str ("esta consulta"), str ("este query"), str ("la consulta"), str ("el query"),
   str ("a continuación"), str ("aquí está"), str ("consulta sql"),
   str ("la siguiente consulta"), str ("query sql"), str ("el siguiente sql"),
   str ("código sql")]

/-- Does the line start, case-insensitively, with an explanatory phrase? -/
def startsWithPhrase (ln : Str) : Bool :=
  phrases.any (fun p => (stripPrefixCI p ln).isSome)

/-- Removes every newline-terminated line that opens with an explanatory
phrase; the pattern requires a trailing newline, so the final line stays. -/
def phraseLinesGo : List Str → List Str
  | [] => []
  | [lastLn] => [lastLn]
  | ln :: rest =>
    if startsWithPhrase ln then phraseLinesGo rest else ln :: phraseLinesGo rest

/-- The anchored phrase-line removal pass. -/
def removePhraseLines (l : Str) : Str := joinNl (phraseLinesGo (splitNl l))

/-- Blanks a line that opens with an explanation label and a colon. -/
def blankIfExplanation (ln : Str) : Str :=
  let labels : List Str := [str ("explicación"), str ("explanation"), str ("nota"), str ("note")]
  if labels.any (fun p =>
      match stripPrefixCI p ln with
      | some r => r.head? = some 58
      | none => false) then [] else ln

/-- Blanks a line that opens as a hash or double-slash comment. -/
def blankIfLineComment (ln : Str) : Str :=
  if (str ("# ")).isPrefixOf ln || (str ("// ")).isPrefixOf ln then [] else ln

/-- sqlCleaner.cleanSqlResponse: the full sequence of replaces from the
source, ending with the short-result fallback to the trimmed original. -/
def cleanSqlResponse (sqlString : Str) : Str :=
  if sqlString = [] then [] else
  let s1 := scan (fenceLangMatcher (str ("sql"))) sqlString
  let s2 := scan (fenceLangMatcher (str ("mysql"))) s1
  let s3 := scan (fenceLangMatcher (str ("mariadb"))) s2
  let s4 := scan fenceEOLMatcher s3
  let s5 := scan tripleBacktickMatcher s4
  let s6 := s5.filter (fun c => ¬ c = 96)
  let s7 := scan lineCommentMatcher s6
  let s8 := scan blockCommentMatcher s7
  let s9 := removePhraseLines s8
  let s10 := mapLines blankIfExplanation s9
  let s11 := mapLines blankIfLineComment s10
  let s12 := jsTrim (joinNl ((splitNl s11).filter (fun ln => ¬ jsTrim ln = [])))
  let s13 := jsTrim (match s12 with
    | c :: rest => if isWordN c || isWsN c then c :: rest else rest
    | [] => [])
  if s13.length < 5 then jsTrim sqlString else s13

/-- One column of a table in the schema snapshot. -/
structure ColumnInfo where
  column_name : Str
deriving DecidableEq

/-- One foreign-key edge of a table in the schema snapshot. -/
structure ForeignKeyInfo where
  column_name : Str
  referenced_table : Str
  referenced_column : Str
deriving DecidableEq

/-- A table of the schema snapshot. -/
structure TableInfo where
  columns : List ColumnInfo
  foreignKeys : List ForeignKeyInfo
deriving DecidableEq

/-- The schema snapshot: an insertion-ordered map from table names. -/
abbrev Schema := List (Str × TableInfo)

/-- The verdict produced by validateQuery. -/
structure ValidationResult where
  valid : Bool
  warnings : List Str
  errors : List Str
  suggestions : List Str
deriving DecidableEq

/-- Is the position after a match at a word boundary? -/
def boundaryOk (r : Str) : Bool :=
  match r with
  | [] => true
  | d :: _ => ¬ isWordN d

/-- Scanner for a case-insensitive word-bounded keyword test; the flag holds
whether the previous character was a word character. -/
def testWBGo (kwLower : Str) : Bool → Str → Bool
  | _, [] => false
  | prevWord, c :: rest =>
    (¬ prevWord &&
      (match stripPrefixCI kwLower (c :: rest) with
       | some r => boundaryOk r
       | none => false)) || testWBGo kwLower (isWordN c) rest

/-- RegExp word-bounded case-insensitive keyword test over a whole string. -/
def testWB (kwLower : Str) (l : Str) : Bool := testWBGo kwLower false l

/-- Matcher for the table-extraction regexes: the keyword, mandatory
whitespace, an optional backtick, a captured word run, an optional backtick.
Returns the captured word, the rest after the full match, and whether the
character just before the new scan position is a word character. -/
def kwCapture (kwLower : Str) (l : Str) : Option (Str × Str × Bool) :=
  match stripPrefixCI kwLower l with
  | none => none
  | some r1 =>
    let ws := r1.takeWhile isWsN
    let r2 := r1.dropWhile isWsN
    if ws = [] then none else
    let r3 := match r2 with | 96 :: t => t | _ => r2
    let w := r3.takeWhile isWordN
    let r4 := r3.dropWhile isWordN
    if w = [] then none else
    match r4 with
    | 96 :: t => some (w, t, false)
    | _ => some (w, r4, true)

/-- Scanner collecting all keyword-introduced table names in order; matches
must start at a word boundary and scanning resumes after each match. -/
def capturesGo (kwLower : Str) : Nat → Bool → Str → List Str
  | _, _, [] => []
  | 0, _, _ => []
  | fuel + 1, prevWord, c :: rest =>
    if prevWord then capturesGo kwLower fuel (isWordN c) rest
    else
      match kwCapture kwLower (c :: rest) with
      | some (w, r, pw) => w :: capturesGo kwLower fuel pw r
      | none => capturesGo kwLower fuel (isWordN c) rest

/-- All table names captured for one keyword. -/
def captures (kwLower : Str) (l : Str) : List Str := capturesGo kwLower l.length false l

/-- Set insertion order: keep the first occurrence of each element. -/
def dedupGo (seen : List Str) : List Str → List Str
  | [] => []
  | x :: rest => if x ∈ seen then dedupGo seen rest else x :: dedupGo (x :: seen) rest

/-- queryValidator.extractTablesFromSQL: FROM captures then JOIN captures,
deduplicated in insertion order. -/
def extractTablesFromSQL (sql : Str) : List Str :=
  dedupGo [] (captures (str ("from")) sql ++ captures (str ("join")) sql)

/-- Matcher for a qualified column reference: a word run at a word boundary,
a dot, an optional backtick, a captured word run, an optional backtick. -/
def colCapture (l : Str) : Option (Str × Str × Str × Bool) :=
  let w1 := l.takeWhile isWordN
  let r1 := l.dropWhile isWordN
  if w1 = [] then none else
  match r1 with
  | 46 :: r2 =>
    let r3 := match r2 with | 96 :: t => t | _ => r2
    let w2 := r3.takeWhile isWordN
    let r4 := r3.dropWhile isWordN
    if w2 = [] then none else
    match r4 with
    | 96 :: t => some (w1, w2, t, false)
    | _ => some (w1, w2, r4, true)
  | _ => none

/-- Date and time function names skipped by the column extractor. -/
def skipFunctionNames : List Str :=
  [str ("DATE"), str ("YEAR"), str ("MONTH"), str ("DAY"), str ("CURRENT_DATE"), str ("NOW")]

/-- Scanner collecting qualified table.column references in order. -/
def columnsGo : Nat → Bool → Str → List (Str × Str)
  | _, _, [] => []
  | 0, _, _ => []
  | fuel + 1, prevWord, c :: rest =>
    if prevWord then columnsGo fuel (isWordN c) rest
    else
      match colCapture (c :: rest) with
      | some (w1, w2, r, pw) =>
        if (w1.map jsToUpper) ∈ skipFunctionNames then columnsGo fuel pw r
        else (w1, w2) :: columnsGo fuel pw r
      | none => columnsGo fuel (isWordN c) rest

/-- queryValidator.extractColumnsFromSQL. -/
def extractColumnsFromSQL (sql : Str) : List (Str × Str) :=
  columnsGo sql.length false sql

/-- Exact prefix strip. -/
def stripPrefixExact (pat l : Str) : Option Str :=
  if pat.isPrefixOf l then some (l.drop pat.length) else none

/-- Scanner counting word-bounded exact keyword matches, resuming after each
match as a global regex does. -/
def countWBGo (kw : Str) : Nat → Bool → Str → Nat
  | _, _, [] => 0
  | 0, _, _ => 0
  | fuel + 1, prevWord, c :: rest =>
    if prevWord then countWBGo kw fuel (isWordN c) rest
    else
      match stripPrefixExact kw (c :: rest) with
      | some r => if boundaryOk r then 1 + countWBGo kw fuel true r
                  else countWBGo kw fuel (isWordN c) rest
      | none => countWBGo kw fuel (isWordN c) rest

/-- Count of word-bounded exact keyword matches over a whole string. -/
def countWB (kw : Str) (l : Str) : Nat := countWBGo kw l.length false l

/-- Exact-key lookup in the schema map. -/
def assocGet (schema : Schema) (k : Str) : Option TableInfo :=
  (schema.find? (fun p => p.1 = k)).map (fun p => p.2)

/-- Array.prototype.join with a comma-space separator. -/
def joinCommaSp : List Str → Str
  | [] => []
  | [l] => l
  | l :: ls => l ++ 44 :: 32 :: joinCommaSp ls

/-- The mutation and DDL keyword denylist. -/
def dangerousKeywords : List Str :=
  [str ("INSERT"), str ("UPDATE"), str ("DELETE"), str ("DROP"), str ("CREATE"),
   str ("ALTER"), str ("TRUNCATE"), str ("EXEC"), str ("EXECUTE")]

/-- queryValidator.validateQuery: the full pattern-based verdict. -/
def validateQuery (sql : Str) (schema : Schema) : ValidationResult :=
  let normalizedSQL := jsTrim (sql.map jsToUpper)
  let schemaTableNames := schema.map (fun p => p.1.map jsToLower)
  if ¬ (str ("SELECT")).isPrefixOf normalizedSQL then
    ⟨false, [], [str ("Solo se permiten consultas SELECT")], []⟩
  else
    let kwErrors := dangerousKeywords.filterMap (fun kw =>
      if testWB (kw.map jsToLower) sql then
        some (str ("Operación peligrosa detectada: ") ++ kw)
      else none)
    let referencedTables := extractTablesFromSQL sql
    let tableErrors := referencedTables.filterMap (fun t =>
      if (t.map jsToLower) ∈ schemaTableNames then none
      else some (str ("Tabla ") ++ 39 :: t ++ 39 ::
        str (" no encontrada en el esquema. Disponibles: ") ++
        joinCommaSp schemaTableNames))
    let referencedColumns := extractColumnsFromSQL sql
    let colWarnings := referencedColumns.filterMap (fun tc =>
      match assocGet schema tc.1 with
      | none => none
      | some ti =>
        let tableColumns := ti.columns.map (fun c => c.column_name.map jsToLower)
        if 0 < tableColumns.length ∧ ¬ (tc.2.map jsToLower) ∈ tableColumns then
          some (str ("La columna ") ++ 39 :: tc.2 ++ 39 ::
            str (" podría no existir en la tabla ") ++ 39 :: tc.1 ++ [39])
        else none)
    let noLimit := ¬ containsStr normalizedSQL (str ("LIMIT")) &&
      ¬ containsStr normalizedSQL (str ("COUNT(")) &&
      ¬ containsStr normalizedSQL (str ("SUM(")) &&
      ¬ containsStr normalizedSQL (str ("AVG(")) &&
      ¬ containsStr normalizedSQL (str ("MAX(")) &&
      ¬ containsStr normalizedSQL (str ("MIN("))
    let limitWarnings := if noLimit then
      [str ("La consulta no tiene cláusula LIMIT — podría devolver muchas filas")] else []
    let limitSuggestions := if noLimit then
      [str ("Considera agregar LIMIT para evitar conjuntos de resultados grandes")] else []
    let joinCount := countWB (str ("JOIN")) normalizedSQL
    let onCount := countWB (str ("ON")) normalizedSQL
    let cartesianWarnings := if 0 < joinCount ∧ onCount < joinCount then
      [str ("Posible producto cartesiano: JOINs detectados sin cláusulas ON correspondientes")]
      else []
    let starSuggestions := if containsStr normalizedSQL (str ("SELECT *")) then
      [str ("Considera especificar columnas en lugar de SELECT * para mejor rendimiento")]
      else []
    let errors := kwErrors ++ tableErrors
    ⟨errors.isEmpty, colWarnings ++ limitWarnings ++ cartesianWarnings, errors,
      limitSuggestions ++ starSuggestions⟩

/-- The deployment default for the retry ceiling, config DEFAULT_MAX_REFLECTIONS. -/
def DEFAULT_MAX_REFLECTIONS : Nat := 3

/-- The read-verb allow-list check of DBManager.executeReadOnlyQuery. -/
def readOnlyAllowed (sql : Str) : Bool :=
  let s := jsTrim (sql.map jsToLower)
  (str ("select")).isPrefixOf s || (str ("show")).isPrefixOf s ||
  (str ("describe")).isPrefixOf s || (str ("desc")).isPrefixOf s ||
  (str ("explain")).isPrefixOf s

/-- The error DBManager raises for a statement outside the allow-list. -/
def readOnlyErrMsg : Str :=
  str ("Only SELECT, SHOW, DESCRIBE, and EXPLAIN queries are allowed in read-only mode")

/-- DBManager.executeReadOnlyQuery: the allow-list guard in front of the
external database client, which is passed in as an oracle. -/
def executeReadOnlyQuery (db : Str → Except Str (List Row)) (sql : Str) :
    Except Str (List Row) :=
  if readOnlyAllowed sql then db sql else .error readOnlyErrMsg

/-- The structured output of one generateReflection call. -/
structure FixSuggestion where
  reasoning : Str
  fixedSql : Str
deriving DecidableEq

/-- One AttemptRecord of the correction loop. -/
structure Reflection where
  error : Str
  reasoning : Str
  fixAttempt : Str
deriving DecidableEq

/-- The value reflectAndFix resolves with. -/
structure ReflectResult where
  sql : Str
  reflections : List Reflection
  attempts : Nat
  results : List Row
  success : Bool
deriving DecidableEq

/-- The while loop of reflectAndFix.  genO gives the generateReflection
outcome and dbO the raw database outcome, both indexed by the current value
of the attempt counter; the accumulated reflections are kept reversed.  The
fuel is seeded so that it strictly dominates the remaining iterations and
its exhaustion branch is unreachable. -/
def reflectGo (genO : Nat → Except Str FixSuggestion)
    (dbO : Nat → Str → Except Str (List Row)) (maxR : Nat) :
    Nat → Nat → Str → Str → List Reflection → ReflectResult
  | 0, attempts, currentSql, _, acc => ⟨currentSql, acc.reverse, attempts, [], false⟩
  | fuel + 1, attempts, currentSql, errorMessage, acc =>
    if attempts ≤ maxR then
      match genO attempts with
      | .error e =>
        if attempts + 1 > maxR then ⟨currentSql, acc.reverse, attempts + 1, [], false⟩
        else reflectGo genO dbO maxR fuel (attempts + 1) currentSql e acc
      | .ok fix =>
        let correctedSql := cleanSqlResponse fix.fixedSql
        let acc2 := (⟨errorMessage, fix.reasoning, correctedSql⟩ : Reflection) :: acc
        match executeReadOnlyQuery (dbO attempts) correctedSql with
        | .ok rows => ⟨correctedSql, acc2.reverse, attempts, rows, true⟩
        | .error e =>
          if attempts + 1 > maxR then ⟨currentSql, acc2.reverse, attempts + 1, [], false⟩
          else reflectGo genO dbO maxR fuel (attempts + 1) currentSql e acc2
    else ⟨currentSql, acc.reverse, attempts, [], false⟩

/-- cyberMySQLOpenAI.reflectAndFix: the loop started at attempt counter 1. -/
def reflectAndFix (genO : Nat → Except Str FixSuggestion)
    (dbO : Nat → Str → Except Str (List Row)) (maxR : Nat)
    (sql errorMessage : Str) : ReflectResult :=
  reflectGo genO dbO maxR (maxR + 1) 1 sql errorMessage []

/-- The TranslationResult returned by query. -/
structure TranslationResult where
  sql : Str
  results : List Row
  reflections : List Reflection
  attempts : Nat
  success : Bool
  confidence : Option Int
  naturalResponse : Str
  executionTime : Nat
  fromCache : Bool
  detailedResponse : Option Str
deriving DecidableEq

/-- The external collaborators of one query call: the generated SQL and its
confidence from generateSQL, the reflection and database oracles indexed by
the attempt counter (index 0 is the initial execution), and the response
formatter, which never rejects in the source. -/
structure QueryEnv where
  genSql : Str
  genConfidence : Option Int
  genReflection : Nat → Except Str FixSuggestion
  db : Nat → Str → Except Str (List Row)
  fmtSimple : Str → List Row → Option Str
  fmtNatural : Str → List Row → Str
  fmtDetailed : Str → List Row → Str

/-- The options argument of query and executeSQL. -/
structure QueryOptions where
  detailed : Bool
  bypassCache : Bool
deriving DecidableEq

/-- cyberMySQLOpenAI.query after the schema fetch: cache lookup, generation,
execution, correction, response formatting, cache store.  Returns the
TranslationResult together with the cache state. -/
def queryModel (env : QueryEnv) (cache : MemoryCache) (cacheEnabled : Bool)
    (maxR : Nat) (language schemaHash prompt : Str) (now elapsed : Nat)
    (opts : QueryOptions) : TranslationResult × MemoryCache :=
  let lookup := if cacheEnabled && !opts.bypassCache then
      cacheGet cache now prompt language schemaHash
    else (none, cache)
  match lookup.1 with
  | some e =>
    (⟨e.sql, e.results, [], 0, true, none, e.naturalResponse, elapsed, true, none⟩,
      lookup.2)
  | none =>
    let outcome : Str × List Row × List Reflection × Nat × Bool :=
      match executeReadOnlyQuery (env.db 0) env.genSql with
      | .ok rows => (env.genSql, rows, [], 0, true)
      | .error e =>
        let r := reflectAndFix env.genReflection env.db maxR env.genSql e
        (r.sql, if r.success then r.results else [], r.reflections, r.attempts, r.success)
    match outcome with
    | (sql, results, reflections, attempts, success) =>
      let naturalResponse := match env.fmtSimple sql results with
        | some s => s
        | none => env.fmtNatural sql results
      let detailedResponse := if opts.detailed then some (env.fmtDetailed sql results)
        else none
      let cache2 := if cacheEnabled && success && ¬ naturalResponse = [] then
          cacheSet lookup.2 now prompt language schemaHash sql results naturalResponse
            elapsed
        else lookup.2
      (⟨sql, results, reflections, attempts, success, env.genConfidence,
        naturalResponse, elapsed, false, detailedResponse⟩, cache2)

/-- The SQLResult returned by executeSQL; the fields absent from the original
error-path object literal are optional. -/
structure SQLResult where
  sql : Str
  results : List Row
  success : Bool
  naturalResponse : Str
  executionTime : Option Nat
  fromCache : Option Bool
  detailedResponse : Option Str
deriving DecidableEq

/-- cyberMySQLOpenAI.executeSQL: clean, execute through the read-only guard,
format; on any execution error resolve with the original SQL, an empty row
list and an error message. -/
def executeSQLModel (db : Str → Except Str (List Row))
    (fmtSimple : Str → List Row → Option Str) (fmtNatural : Str → List Row → Str)
    (fmtDetailed : Str → List Row → Str) (sql : Str) (elapsed : Nat)
    (opts : QueryOptions) : SQLResult :=
  let cleanedSql := cleanSqlResponse sql
  match executeReadOnlyQuery db cleanedSql with
  | .error e =>
    ⟨sql, [], false, str ("Error ejecutando la consulta: ") ++ e, none, none, none⟩
  | .ok rows =>
    let naturalResponse := match fmtSimple cleanedSql rows with
      | some s => s
      | none => fmtNatural cleanedSql rows
    let detailedResponse := if opts.detailed then some (fmtDetailed cleanedSql rows)
      else none
    ⟨cleanedSql, rows, true, naturalResponse, some elapsed, some false, detailedResponse⟩

/-- A one-table demonstration schema. -/
def demoSchema : Schema :=
  [(str ("users"), ⟨[⟨str ("id")⟩, ⟨str ("name")⟩], []⟩)]

/-- A demonstration row. -/
def demoRow : Row := [(str ("id"), str ("1"))]

/-- A SELECT statement the validator marks invalid (word-bounded DROP). -/
def badSql : Str := str ("SELECT * FROM users; DROP TABLE users")

/-- An environment whose generation step yields badSql and whose database
accepts every statement it is handed. -/
def envInvalidVerdict : QueryEnv :=
  ⟨badSql, none, fun _ => .error (str ("unused")), fun _ _ => .ok [demoRow],
    fun _ _ => none, fun _ _ => str ("done"), fun _ _ => str ("details")⟩

/-- A disabled cache placeholder used when the cache is off. -/
def offCache : MemoryCache := ⟨[], 0, 0, 1000, false⟩

/-- An environment whose corrections always produce the same candidate and
whose database rejects every statement. -/
def envAlwaysFail : QueryEnv :=
  ⟨str ("SELECT aaa"), none,
    fun _ => .ok ⟨str ("reason"), str ("SELECT bbb")⟩,
    fun _ _ => .error (str ("table missing")),
    fun _ _ => none, fun _ _ => str ("no results"), fun _ _ => str ("details")⟩

/-- Default options: no detailed response, cache not bypassed. -/
def defaultOpts : QueryOptions := ⟨false, false⟩

/-- The repository test input with backtick-quoted identifiers. -/
def backtickSql : Str :=
  str ("SELECT `user`.`name`, `user`.`email` FROM `user` WHERE `user`.`disabled` = 0")

/-- The same statement with every backtick stripped. -/
def backtickSqlStripped : Str :=
  str ("SELECT user.name, user.email FROM user WHERE user.disabled = 0")

/-- A cache entry used to demonstrate the hit path. -/
def demoEntry : CacheEntry :=
  ⟨str ("SELECT 1"), [demoRow], str ("one row"), 10, 300000, str ("en"), 7⟩

/-- A cache holding demoEntry under the key of the question ping. -/
def demoHitCache : MemoryCache :=
  ⟨[(generateKey (str ("ping")) (str ("en")) (str ("h1")), demoEntry)], 0, 0, 1000, true⟩

/-- A store operation at an explicit time, used by the capacity theorems. -/
def mkOp (prompt : String) (now : Nat) : SetOp :=
  ⟨str prompt, str ("en"), str ("h1"), str ("SELECT 9"), [], str ("ok"), 1, now⟩

/-- An empty enabled cache of capacity one. -/
def tinyCache : MemoryCache := ⟨[], 0, 0, 1, true⟩

/-- An empty enabled cache of capacity two. -/
def twoCache : MemoryCache := ⟨[], 0, 0, 2, true⟩

/-- C1: the code violates the claim.  The generated statement badSql gets the
verdict valid = false from validateQuery (word-bounded DROP), yet query()
never consults the validator: the statement passes the only guard in front
of the database (the leading-keyword check of executeReadOnlyQuery), is
executed, and its rows are returned with success = true. -/
theorem c1_invalid_verdict_still_executed :
    (validateQuery badSql demoSchema).valid = false ∧
    (validateQuery badSql demoSchema).errors =
      [str ("Operación peligrosa detectada: DROP")] ∧
    readOnlyAllowed badSql = true ∧
    (queryModel envInvalidVerdict offCache false 3 (str ("en")) (str ("h1"))
      (str ("q")) 0 5 defaultOpts).1.success = true ∧
    (queryModel envInvalidVerdict offCache false 3 (str ("en")) (str ("h1"))
      (str ("q")) 0 5 defaultOpts).1.sql = badSql ∧
    (queryModel envInvalidVerdict offCache false 3 (str ("en")) (str ("h1"))
      (str ("q")) 0 5 defaultOpts).1.results = [demoRow] := by
  decide

/-- C6: the code violates the claim and its own regression test.  On the
repository test input, cleanSqlResponse strips the identifier-quoting
backticks rather than preserving them. -/
theorem c6_backticks_stripped :
    cleanSqlResponse backtickSql = backtickSqlStripped ∧
    backtickSqlStripped ≠ backtickSql := by
  decide

/-- C7 counterexample: on the statement UPDATE users SET x=1 the validator
does return valid = false, but its single error is the early non-SELECT
rejection, which does not mention the blocked keyword UPDATE in either
case. -/
theorem c7_counterexample_no_keyword_in_error :
    (validateQuery (str ("UPDATE users SET x=1")) demoSchema).valid = false ∧
    (validateQuery (str ("UPDATE users SET x=1")) demoSchema).errors =
      [str ("Solo se permiten consultas SELECT")] ∧
    containsStr (str ("Solo se permiten consultas SELECT")) (str ("UPDATE")) = false ∧
    containsStr (str ("Solo se permiten consultas SELECT")) (str ("update")) = false := by
  decide

/-- C7 (amended): for the input UPDATE users SET x=1 and any schema,
validateQuery returns valid = false with the single error stating that only
SELECT statements are allowed; the early non-SELECT rejection fires before
the keyword denylist scan, so no error mentions UPDATE. -/
theorem c7_amended_update_rejected (schema : Schema) :
    validateQuery (str ("UPDATE users SET x=1")) schema =
      ⟨false, [], [str ("Solo se permiten consultas SELECT")], []⟩ := by
  have h : ((str ("SELECT")).isPrefixOf
      (jsTrim ((str ("UPDATE users SET x=1")).map jsToUpper))) = false := by decide
  simp [validateQuery, h]

/-- C2 counterexample: with the default ceiling of three reflections, a run
in which the initial execution and every correction execution fail returns
success = false but attempts = 4, not the ceiling 3. -/
theorem c2_counterexample_attempts_exceed_ceiling :
    (queryModel envAlwaysFail offCache false DEFAULT_MAX_REFLECTIONS (str ("en"))
      (str ("h1")) (str ("q")) 0 5 defaultOpts).1.success = false ∧
    (queryModel envAlwaysFail offCache false DEFAULT_MAX_REFLECTIONS (str ("en"))
      (str ("h1")) (str ("q")) 0 5 defaultOpts).1.attempts = 4 ∧
    (queryModel envAlwaysFail offCache false DEFAULT_MAX_REFLECTIONS (str ("en"))
      (str ("h1")) (str ("q")) 0 5 defaultOpts).1.attempts ≠ DEFAULT_MAX_REFLECTIONS := by
  decide

/-- C3 counterexample: in an exhausted run whose corrections all proposed
SELECT bbb, the returned sql is the original SELECT aaa, not the last
attempted candidate recorded in the final AttemptRecord. -/
theorem c3_counterexample_sql_not_last_attempt :
    (queryModel envAlwaysFail offCache false 3 (str ("en")) (str ("h1"))
      (str ("q")) 0 5 defaultOpts).1.success = false ∧
    (queryModel envAlwaysFail offCache false 3 (str ("en")) (str ("h1"))
      (str ("q")) 0 5 defaultOpts).1.sql = str ("SELECT aaa") ∧
    ((queryModel envAlwaysFail offCache false 3 (str ("en")) (str ("h1"))
      (str ("q")) 0 5 defaultOpts).1.reflections.getLast?).map
        (fun r => r.fixAttempt) = some (str ("SELECT bbb")) ∧
    str ("SELECT bbb") ≠ str ("SELECT aaa") := by
  decide

/-- The loop never accumulates more than one AttemptRecord per remaining
admissible value of the attempt counter. -/
theorem reflectGo_reflections_le (genO : Nat → Except Str FixSuggestion)
    (dbO : Nat → Str → Except Str (List Row)) (maxR : Nat) :
    ∀ fuel attempts cs em acc,
      (reflectGo genO dbO maxR fuel attempts cs em acc).reflections.length ≤
        acc.length + (maxR + 1 - attempts) := by
  intro fuel
  induction fuel with
  | zero =>
    intro attempts cs em acc
    simp [reflectGo]
  | succ fuel ih =>
    intro attempts cs em acc
    simp only [reflectGo]
    by_cases hle : attempts ≤ maxR
    · simp only [if_pos hle]
      cases hg : genO attempts with
      | error e =>
        by_cases hstop : attempts + 1 > maxR
        · simp only [if_pos hstop, List.length_reverse]
          omega
        · simp only [if_neg hstop]
          have := ih (attempts + 1) cs e acc
          omega
      | ok fix =>
        cases hx : executeReadOnlyQuery (dbO attempts)
            (cleanSqlResponse fix.fixedSql) with
        | ok rows =>
          simp only [hx, List.length_reverse, List.length_cons]
          omega
        | error e =>
          simp only [hx]
          by_cases hstop : attempts + 1 > maxR
          · simp only [if_pos hstop, List.length_reverse, List.length_cons]
            omega
          · simp only [if_neg hstop]
            have := ih (attempts + 1) cs e
              ((⟨em, fix.reasoning, cleanSqlResponse fix.fixedSql⟩ : Reflection) :: acc)
            simp only [List.length_cons] at this
            omega
    · simp only [if_neg hle, List.length_reverse]
      omega

/-- When every correction produces a candidate and every database call
fails, the loop runs the attempt counter past the ceiling, keeps the entry
SQL, returns no rows and records one AttemptRecord per iteration. -/
theorem reflectGo_allfail (genO : Nat → Except Str FixSuggestion)
    (dbO : Nat → Str → Except Str (List Row)) (maxR : Nat)
    (hgen : ∀ n, ∃ f, genO n = .ok f)
    (hdb : ∀ n s, ∃ msg, dbO n s = .error msg) :
    ∀ fuel attempts cs em acc, attempts ≤ maxR → maxR + 1 ≤ attempts + fuel →
      (reflectGo genO dbO maxR fuel attempts cs em acc).success = false ∧
      (reflectGo genO dbO maxR fuel attempts cs em acc).attempts = maxR + 1 ∧
      (reflectGo genO dbO maxR fuel attempts cs em acc).sql = cs ∧
      (reflectGo genO dbO maxR fuel attempts cs em acc).results = [] ∧
      (reflectGo genO dbO maxR fuel attempts cs em acc).reflections.length =
        acc.length + (maxR + 1 - attempts) := by
  intro fuel
  induction fuel with
  | zero =>
    intro attempts cs em acc hle hfuel
    omega
  | succ fuel ih =>
    intro attempts cs em acc hle hfuel
    obtain ⟨f, hf⟩ := hgen attempts
    obtain ⟨msg, hmsg⟩ := hdb attempts (cleanSqlResponse f.fixedSql)
    have hx : ∃ e, executeReadOnlyQuery (dbO attempts)
        (cleanSqlResponse f.fixedSql) = .error e := by
      unfold executeReadOnlyQuery
      by_cases hg : readOnlyAllowed (cleanSqlResponse f.fixedSql)
      · exact ⟨msg, by simp [hg, hmsg]⟩
      · exact ⟨readOnlyErrMsg, by simp [hg]⟩
    obtain ⟨e, he⟩ := hx
    simp only [reflectGo, if_pos hle, hf, he]
    by_cases hstop : attempts + 1 > maxR
    · simp only [if_pos hstop, List.length_reverse, List.length_cons]
      refine ⟨?_, ?_, ?_, ?_, ?_⟩ <;> first | trivial | omega
    · simp only [if_neg hstop]
      have := ih (attempts + 1) cs e
        ((⟨em, f.reasoning, cleanSqlResponse f.fixedSql⟩ : Reflection) :: acc)
        (by omega) (by omega)
      refine ⟨this.1, this.2.1, this.2.2.1, this.2.2.2.1, ?_⟩
      have h5 := this.2.2.2.2
      simp only [List.length_cons] at h5
      omega

/-- A database client that fails makes the guarded execution fail. -/
theorem execRO_error (db : Str → Except Str (List Row)) (s : Str)
    (h : ∃ msg, db s = .error msg) :
    ∃ e, executeReadOnlyQuery db s = .error e := by
  obtain ⟨msg, hmsg⟩ := h
  unfold executeReadOnlyQuery
  by_cases hg : readOnlyAllowed s
  · exact ⟨msg, by simp [hg, hmsg]⟩
  · exact ⟨readOnlyErrMsg, by simp [hg]⟩

/-- C2 (amended): when the lookup misses, every correction produces a
candidate and every database call raises an execution error, query() returns
success = false and an attempts field of maxReflections + 1 — one more than
the configured ceiling, since the counter is incremented past the ceiling
before the loop exits. -/
theorem c2_amended_attempts_is_ceiling_plus_one (env : QueryEnv)
    (cache : MemoryCache) (cacheEnabled : Bool) (maxR : Nat)
    (language schemaHash prompt : Str) (now elapsed : Nat) (opts : QueryOptions)
    (hm : 1 ≤ maxR)
    (hmiss : (if cacheEnabled && !opts.bypassCache then
        cacheGet cache now prompt language schemaHash else (none, cache)).1 = none)
    (hgen : ∀ n, ∃ f, env.genReflection n = .ok f)
    (hdb : ∀ n s, ∃ msg, env.db n s = .error msg) :
    (queryModel env cache cacheEnabled maxR language schemaHash prompt now elapsed
      opts).1.success = false ∧
    (queryModel env cache cacheEnabled maxR language schemaHash prompt now elapsed
      opts).1.attempts = maxR + 1 := by
  obtain ⟨e, he⟩ := execRO_error (env.db 0) env.genSql (hdb 0 env.genSql)
  have hloop := reflectGo_allfail env.genReflection env.db maxR hgen hdb
    (maxR + 1) 1 env.genSql e [] (by omega) (by omega)
  simp only [queryModel, hmiss, he, reflectAndFix]
  exact ⟨hloop.1, hloop.2.1⟩

/-- C3 (amended): when the correction loop exhausts all its retries, query()
returns normally (the model is a total function, matching the source where
the formatter catches its own failures) with sql equal to the SQL produced
by the initial generation — corrected candidates are adopted only on
success — together with an empty result list, success = false and the full
ordered list of one AttemptRecord per correction attempt. -/
theorem c3_amended_exhausted_returns_original_sql (env : QueryEnv)
    (cache : MemoryCache) (cacheEnabled : Bool) (maxR : Nat)
    (language schemaHash prompt : Str) (now elapsed : Nat) (opts : QueryOptions)
    (hm : 1 ≤ maxR)
    (hmiss : (if cacheEnabled && !opts.bypassCache then
        cacheGet cache now prompt language schemaHash else (none, cache)).1 = none)
    (hgen : ∀ n, ∃ f, env.genReflection n = .ok f)
    (hdb : ∀ n s, ∃ msg, env.db n s = .error msg) :
    (queryModel env cache cacheEnabled maxR language schemaHash prompt now elapsed
      opts).1.sql = env.genSql ∧
    (queryModel env cache cacheEnabled maxR language schemaHash prompt now elapsed
      opts).1.results = [] ∧
    (queryModel env cache cacheEnabled maxR language schemaHash prompt now elapsed
      opts).1.success = false ∧
    (queryModel env cache cacheEnabled maxR language schemaHash prompt now elapsed
      opts).1.reflections.length = maxR := by
  obtain ⟨e, he⟩ := execRO_error (env.db 0) env.genSql (hdb 0 env.genSql)
  have hloop := reflectGo_allfail env.genReflection env.db maxR hgen hdb
    (maxR + 1) 1 env.genSql e [] (by omega) (by omega)
  simp only [queryModel, hmiss, he, reflectAndFix]
  refine ⟨hloop.2.2.1, ?_, hloop.1, ?_⟩
  · simp [hloop.1]
  · have := hloop.2.2.2.2
    simp only [List.length_nil] at this
    omega

/-- C4: for every environment, cache state, configuration and options, the
reflections list of the result of query() never holds more than
maxReflections AttemptRecords. -/
theorem c4_reflections_bounded_by_ceiling (env : QueryEnv) (cache : MemoryCache)
    (cacheEnabled : Bool) (maxR : Nat) (language schemaHash prompt : Str)
    (now elapsed : Nat) (opts : QueryOptions) :
    (queryModel env cache cacheEnabled maxR language schemaHash prompt now elapsed
      opts).1.reflections.length ≤ maxR := by
  simp only [queryModel]
  cases hlk : (if cacheEnabled && !opts.bypassCache then
      cacheGet cache now prompt language schemaHash else (none, cache)).1 with
  | some e => simp
  | none =>
    simp only []
    cases hx : executeReadOnlyQuery (env.db 0) env.genSql with
    | ok rows => simp
    | error e =>
      simp only [reflectAndFix]
      have := reflectGo_reflections_le env.genReflection env.db maxR
        (maxR + 1) 1 env.genSql e []
      simp only [List.length_nil] at this
      omega

/-- Witness for the amended C2 at a concrete failing environment. -/
theorem c2_amended_witness :
    (queryModel envAlwaysFail offCache false 3 (str ("en")) (str ("h1"))
      (str ("q")) 0 5 defaultOpts).1.success = false ∧
    (queryModel envAlwaysFail offCache false 3 (str ("en")) (str ("h1"))
      (str ("q")) 0 5 defaultOpts).1.attempts = 3 + 1 :=
  c2_amended_attempts_is_ceiling_plus_one envAlwaysFail offCache false 3
    (str ("en")) (str ("h1")) (str ("q")) 0 5 defaultOpts (by omega) (by decide)
    (fun n => ⟨⟨str ("reason"), str ("SELECT bbb")⟩, rfl⟩)
    (fun n s => ⟨str ("table missing"), rfl⟩)

/-- Witness for the amended C3 at a concrete failing environment. -/
theorem c3_amended_witness :
    (queryModel envAlwaysFail offCache false 3 (str ("en")) (str ("h1"))
      (str ("q")) 0 5 defaultOpts).1.sql = envAlwaysFail.genSql ∧
    (queryModel envAlwaysFail offCache false 3 (str ("en")) (str ("h1"))
      (str ("q")) 0 5 defaultOpts).1.results = [] ∧
    (queryModel envAlwaysFail offCache false 3 (str ("en")) (str ("h1"))
      (str ("q")) 0 5 defaultOpts).1.success = false ∧
    (queryModel envAlwaysFail offCache false 3 (str ("en")) (str ("h1"))
      (str ("q")) 0 5 defaultOpts).1.reflections.length = 3 :=
  c3_amended_exhausted_returns_original_sql envAlwaysFail offCache false 3
    (str ("en")) (str ("h1")) (str ("q")) 0 5 defaultOpts (by omega) (by decide)
    (fun n => ⟨⟨str ("reason"), str ("SELECT bbb")⟩, rfl⟩)
    (fun n s => ⟨str ("table missing"), rfl⟩)

/-- C9: when the cache is enabled, not bypassed and the lookup returns an
entry, query() answers from the cache: sql, results and naturalResponse are
taken verbatim from the entry, attempts is 0, reflections is empty,
success = true, fromCache = true, and no confidence or detailed response is
reported. -/
theorem c9_cache_hit_shape (env : QueryEnv) (cache : MemoryCache) (maxR : Nat)
    (language schemaHash prompt : Str) (now elapsed : Nat) (opts : QueryOptions)
    (e : CacheEntry)
    (hbp : opts.bypassCache = false)
    (hhit : (cacheGet cache now prompt language schemaHash).1 = some e) :
    (queryModel env cache true maxR language schemaHash prompt now elapsed
      opts).1 =
      ⟨e.sql, e.results, [], 0, true, none, e.naturalResponse, elapsed, true,
        none⟩ := by
  simp only [queryModel, hbp, Bool.not_false, Bool.and_true, if_true, hhit]

/-- Witness for C9 at a concrete one-entry cache. -/
theorem c9_cache_hit_witness :
    (queryModel envAlwaysFail demoHitCache true 3 (str ("en")) (str ("h1"))
      (str ("ping")) 20 4 defaultOpts).1 =
      ⟨demoEntry.sql, demoEntry.results, [], 0, true, none,
        demoEntry.naturalResponse, 4, true, none⟩ :=
  c9_cache_hit_shape envAlwaysFail demoHitCache 3 (str ("en")) (str ("h1"))
    (str ("ping")) 20 4 defaultOpts demoEntry rfl (by decide)

/-- C10: whenever the guarded execution of the cleaned statement raises an
error, executeSQL resolves normally with the original un-cleaned SQL echoed
back, an empty result list, success = false and a message embedding the
error text; the fields executionTime and fromCache are absent. -/
theorem c10_execute_sql_error_shape (db : Str → Except Str (List Row))
    (fmtSimple : Str → List Row → Option Str) (fmtNatural : Str → List Row → Str)
    (fmtDetailed : Str → List Row → Str) (sql : Str) (elapsed : Nat)
    (opts : QueryOptions) (msg : Str)
    (herr : executeReadOnlyQuery db (cleanSqlResponse sql) = .error msg) :
    executeSQLModel db fmtSimple fmtNatural fmtDetailed sql elapsed opts =
      ⟨sql, [], false, str ("Error ejecutando la consulta: ") ++ msg, none, none,
        none⟩ := by
  simp only [executeSQLModel, herr]

/-- Witness for C10: a fenced statement whose cleaned form differs from the
original; the database fails and the original is echoed back. -/
theorem c10_execute_sql_error_witness :
    executeSQLModel (fun _ => .error (str ("boom"))) (fun _ _ => none)
      (fun _ _ => str ("n")) (fun _ _ => str ("d"))
      (str ("```sql" ++ "\nSELECT 1\n" ++ "```")) 3 defaultOpts =
      ⟨str ("```sql" ++ "\nSELECT 1\n" ++ "```"), [], false,
        str ("Error ejecutando la consulta: ") ++ str ("boom"), none, none, none⟩ ∧
    cleanSqlResponse (str ("```sql" ++ "\nSELECT 1\n" ++ "```")) ≠
      str ("```sql" ++ "\nSELECT 1\n" ++ "```") :=
  ⟨c10_execute_sql_error_shape (fun _ => .error (str ("boom"))) (fun _ _ => none)
      (fun _ _ => str ("n")) (fun _ _ => str ("d"))
      (str ("```sql" ++ "\nSELECT 1\n" ++ "```")) 3 defaultOpts (str ("boom"))
      (by rfl),
    by decide⟩

/-- Setting an absent key appends to the insertion-ordered map. -/
theorem mapSet_append (m : List (Str × CacheEntry)) (k : Str) (v : CacheEntry)
    (h : k ∉ m.map Prod.fst) : mapSet m k v = m ++ [(k, v)] := by
  induction m with
  | nil => rfl
  | cons p rest ih =>
    obtain ⟨k2, v2⟩ := p
    simp only [List.map_cons, List.mem_cons] at h
    push_neg at h
    simp only [mapSet, if_neg (Ne.symm h.1), List.cons_append, ih h.2]

/-- Deleting the head key of the map drops the head entry. -/
theorem mapDelete_head (k : Str) (v : CacheEntry) (rest : List (Str × CacheEntry)) :
    mapDelete ((k, v) :: rest) k = rest := by
  simp [mapDelete]

/-- The eviction fold never changes a state whose time bound is below every
remaining timestamp. -/
theorem evictFold_no_update (l : List (Str × CacheEntry)) (bk : Option Str) (t : Nat)
    (h : ∀ p ∈ l, ¬ p.2.timestamp < t) : evictFold l (bk, t) = (bk, t) := by
  induction l generalizing bk with
  | nil => rfl
  | cons p rest ih =>
    have hp : ¬ p.2.timestamp < t := h p (List.mem_cons_self p rest)
    simp only [evictFold, if_neg hp]
    exact ih bk (fun q hq => h q (List.mem_cons_of_mem p hq))

/-- With a head entry older than the current time and at least as old as
every other entry, the eviction scan selects the head key. -/
theorem evictOldestKey_head (k : Str) (e : CacheEntry)
    (rest : List (Str × CacheEntry)) (now : Nat) (hnow : e.timestamp < now)
    (hmin : ∀ p ∈ rest, ¬ p.2.timestamp < e.timestamp) :
    evictOldestKey ((k, e) :: rest) now = some k := by
  unfold evictOldestKey
  simp only [evictFold, if_pos hnow]
  rw [evictFold_no_update rest (some k) e.timestamp hmin]

/-- Storing under a fresh key in an enabled cache below capacity appends the
new entry. -/
theorem cacheSet_append (c : MemoryCache) (now : Nat) (prompt lang hash sql : Str)
    (results : List Row) (nr : Str) (t : Nat)
    (hen : c.enabled = true) (hlt : ¬ c.entries.length ≥ c.maxSize)
    (hkey : generateKey prompt lang hash ∉ c.entries.map Prod.fst) :
    cacheSet c now prompt lang hash sql results nr t =
      { c with entries := c.entries ++
          [(generateKey prompt lang hash, ⟨sql, results, nr, now, getTTL sql, lang, t⟩)] } := by
  unfold cacheSet
  rw [if_neg (not_not_intro hen)]
  dsimp only
  rw [if_neg hlt, mapSet_append c.entries _ _ hkey]

/-- Filling an enabled cache with distinct fresh keys within its capacity
appends one entry per operation, in order. -/
theorem runSets_fill (ops : List SetOp) : ∀ (c : MemoryCache),
    c.enabled = true →
    c.entries.length + ops.length ≤ c.maxSize →
    (∀ op ∈ ops, opKey op ∉ c.entries.map Prod.fst) →
    (ops.map opKey).Nodup →
    runSets c ops =
      { c with entries := c.entries ++ ops.map (fun op => (opKey op, opEntry op)) } := by
  induction ops with
  | nil =>
    intro c hen hlen hmem hnd
    simp [runSets]
  | cons op rest ih =>
    intro c hen hlen hmem hnd
    have hlt : ¬ c.entries.length ≥ c.maxSize := by
      simp only [List.length_cons] at hlen
      omega
    have hkey : opKey op ∉ c.entries.map Prod.fst :=
      hmem op (List.mem_cons_self op rest)
    have happly : applyOp c op =
        { c with entries := c.entries ++ [(opKey op, opEntry op)] } :=
      cacheSet_append c op.now op.prompt op.language op.schemaHash op.sql
        op.results op.naturalResponse op.executionTime hen hlt hkey
    simp only [List.map_cons, List.nodup_cons] at hnd
    have hstep := ih { c with entries := c.entries ++ [(opKey op, opEntry op)] }
      hen
      (by simp only [List.length_append, List.length_singleton]
          simp only [List.length_cons] at hlen
          omega)
      (by intro op2 hop2
          simp only [List.map_append, List.mem_append]
          push_neg
          refine ⟨fun hin => hmem op2 (List.mem_cons_of_mem op hop2) hin, ?_⟩
          simp only [List.map_cons, List.map_nil, List.mem_singleton]
          intro heq
          exact hnd.1 (heq ▸ List.mem_map_of_mem opKey hop2))
      hnd.2
    calc runSets c (op :: rest) = runSets (applyOp c op) rest := rfl
      _ = _ := by
          rw [happly, hstep]
          simp [List.append_assoc]

/-- C5 (amended): for a positive capacity m and creation timestamps that
strictly increase from store to store, storing m + 1 entries with pairwise
distinct keys into an empty enabled cache leaves exactly m entries, and the
single evicted entry is the first stored one — the one with the oldest
creation timestamp.  The timestamp proviso is forced: with equal timestamps
the strict-minimum eviction scan finds no entry and the capacity is
exceeded. -/
theorem c5_amended_capacity_eviction (m : Nat) (ops : List SetOp) (lastOp : SetOp)
    (c : MemoryCache)
    (hm : 1 ≤ m)
    (hentries : c.entries = []) (hen : c.enabled = true) (hmax : c.maxSize = m)
    (hlen : ops.length = m)
    (hnd : ((ops ++ [lastOp]).map opKey).Nodup)
    (hmono : List.Pairwise (fun a b => a.now < b.now) (ops ++ [lastOp])) :
    (runSets c (ops ++ [lastOp])).entries.map Prod.fst =
      (ops.map opKey).drop 1 ++ [opKey lastOp] ∧
    (runSets c (ops ++ [lastOp])).entries.length = m := by
  rw [List.map_append] at hnd
  obtain ⟨hndOps, hndLast, hdisj⟩ := List.nodup_append.mp hnd
  cases ops with
  | nil => simp only [List.length_nil] at hlen; omega
  | cons op0 rest =>
  obtain ⟨ce, chits, cmiss, cmax, cen⟩ := c
  have h1 : ce = [] := hentries
  have h2 : cen = true := hen
  have h3 : cmax = m := hmax
  subst h1 h2 h3
  have hmono0 := List.pairwise_cons.mp hmono
  have hnow : (opEntry op0).timestamp < lastOp.now := hmono0.1 lastOp (by simp)
  have hmin : ∀ p ∈ rest.map (fun op => (opKey op, opEntry op)),
      ¬ p.2.timestamp < (opEntry op0).timestamp := by
    intro p hp
    obtain ⟨op, hop, hpe⟩ := List.mem_map.mp hp
    have : op0.now < op.now := hmono0.1 op (by simp [hop])
    rw [← hpe]
    simp only [opEntry]
    omega
  have hfresh : generateKey lastOp.prompt lastOp.language lastOp.schemaHash ∉
      (rest.map (fun op => (opKey op, opEntry op))).map Prod.fst := by
    intro hmem
    have hin : opKey lastOp ∈ (op0 :: rest).map opKey := by
      simp only [List.map_map] at hmem
      simp only [List.map_cons, List.mem_cons]
      right
      simpa using hmem
    exact hdisj hin (by simp)
  have hfill := runSets_fill (op0 :: rest)
    (⟨[], chits, cmiss, cmax, true⟩ : MemoryCache) rfl
    (by simpa using hlen.le) (by simp) hndOps
  simp only [List.nil_append] at hfill
  have hev : evictOldest
      (⟨(op0 :: rest).map (fun op => (opKey op, opEntry op)), chits, cmiss, cmax,
        true⟩ : MemoryCache) lastOp.now =
      (⟨rest.map (fun op => (opKey op, opEntry op)), chits, cmiss, cmax, true⟩ :
        MemoryCache) := by
    unfold evictOldest
    simp only [List.map_cons]
    rw [evictOldestKey_head _ _ _ _ hnow hmin]
    dsimp only
    rw [mapDelete_head]
  have hge : ((op0 :: rest).map (fun op => (opKey op, opEntry op))).length ≥ cmax := by
    simp only [List.length_map, List.length_cons]
    simp only [List.length_cons] at hlen
    omega
  have happly : applyOp
      (⟨(op0 :: rest).map (fun op => (opKey op, opEntry op)), chits, cmiss, cmax,
        true⟩ : MemoryCache) lastOp =
      (⟨rest.map (fun op => (opKey op, opEntry op)) ++
        [(opKey lastOp, opEntry lastOp)], chits, cmiss, cmax, true⟩ :
        MemoryCache) := by
    unfold applyOp cacheSet
    rw [if_neg (not_not_intro rfl)]
    dsimp only
    rw [if_pos hge, hev]
    dsimp only
    rw [mapSet_append _ _ _ hfresh]
    rfl
  have hsplit : runSets (⟨[], chits, cmiss, cmax, true⟩ : MemoryCache)
      ((op0 :: rest) ++ [lastOp]) =
      applyOp (runSets (⟨[], chits, cmiss, cmax, true⟩ : MemoryCache)
        (op0 :: rest)) lastOp := by
    simp [runSets, List.foldl_append]
  rw [hsplit, hfill, happly]
  constructor
  · simp [List.map_map]
  · simp only [List.length_append, List.length_map, List.length_singleton]
    simp only [List.length_cons] at hlen
    omega

/-- C5 counterexample: the claim as stated fails when two stores share a
creation timestamp.  With capacity one, storing two entries with distinct
keys in the same millisecond leaves two entries: the eviction scan, seeded
with the current time and using a strict comparison, finds nothing to
evict. -/
theorem c5_counterexample_equal_timestamps :
    tinyCache.maxSize = 1 ∧
    opKey (mkOp ("a") 5) ≠ opKey (mkOp ("b") 5) ∧
    (runSets tinyCache [mkOp ("a") 5, mkOp ("b") 5]).entries.length = 2 := by
  decide

/-- Witness for the amended C5 at capacity two with three stores at strictly
increasing times: the first key is evicted, the two later keys remain. -/
theorem c5_amended_witness :
    (runSets twoCache [mkOp ("a") 1, mkOp ("b") 2, mkOp ("c") 3]).entries.map
        Prod.fst =
      ([mkOp ("a") 1, mkOp ("b") 2].map opKey).drop 1 ++ [opKey (mkOp ("c") 3)] ∧
    (runSets twoCache [mkOp ("a") 1, mkOp ("b") 2, mkOp ("c") 3]).entries.length =
      2 := by
  have h := c5_amended_capacity_eviction 2 [mkOp ("a") 1, mkOp ("b") 2]
    (mkOp ("c") 3) twoCache (by omega) rfl rfl rfl rfl (by decide) (by decide)
  simpa using h

/-- Digit-ness is invariant under the digit-collapsing shape map. -/
theorem isDigitN_shape (c : Nat) : isDigitN (shapeN c) = isDigitN c := by
  unfold isDigitN shapeN
  split
  · next h => exact decide_eq_decide.mpr (by omega)
  · rfl

/-- Being a dash is invariant under the shape map. -/
theorem dash45_shape (c : Nat) : decide (shapeN c = 45) = decide (c = 45) := by
  unfold shapeN
  split
  · next h => exact decide_eq_decide.mpr (by omega)
  · rfl

/-- Whitespace-ness is invariant under the shape map. -/
theorem isWsN_shape (c : Nat) : isWsN (shapeN c) = isWsN c := by
  unfold isWsN shapeN
  split
  · next h => exact decide_eq_decide.mpr (by omega)
  · rfl

/-- Punctuation-ness is invariant under the shape map. -/
theorem isPunctN_shape (c : Nat) : isPunctN (shapeN c) = isPunctN c := by
  unfold isPunctN shapeN
  split
  · next h => exact decide_eq_decide.mpr (by omega)
  · rfl

/-- The shape of a lowercased character depends only on the shape. -/
theorem shape_lower_factor (c : Nat) :
    shapeN (jsToLower c) = shapeN (jsToLower (shapeN c)) := by
  unfold shapeN jsToLower
  split_ifs <;> omega

/-- Lowercasing fixes the punctuation characters. -/
theorem lower_punct_fix (u : Nat) (h : isPunctN u = true) : jsToLower u = u := by
  unfold isPunctN at h
  unfold jsToLower
  rw [if_neg]
  have := of_decide_eq_true h
  omega

/-- Whitespace-ness is invariant under lowercasing. -/
theorem isWsN_lower (c : Nat) : isWsN (jsToLower c) = isWsN c := by
  unfold isWsN jsToLower
  split
  · next h => exact decide_eq_decide.mpr (by omega)
  · rfl

/-- Punctuation characters are not whitespace. -/
theorem punct_not_ws (u : Nat) (h : isPunctN u = true) : isWsN u = false := by
  unfold isPunctN at h
  unfold isWsN
  have := of_decide_eq_true h
  exact decide_eq_false (by omega)

/-- dropWhile on whitespace commutes with the shape map. -/
theorem dropWhileWs_shape (l : Str) :
    (l.map shapeN).dropWhile isWsN = (l.dropWhile isWsN).map shapeN := by
  induction l with
  | nil => rfl
  | cons c rest ih =>
    simp only [List.map_cons, List.dropWhile_cons, isWsN_shape]
    cases h : isWsN c with
    | true => simpa [h] using ih
    | false => simp [h]

/-- ltrim commutes with the shape map. -/
theorem ltrim_shape (l : Str) : ltrim (l.map shapeN) = (ltrim l).map shapeN := by
  unfold ltrim
  exact dropWhileWs_shape l

/-- rtrim commutes with the shape map. -/
theorem rtrim_shape (l : Str) : rtrim (l.map shapeN) = (rtrim l).map shapeN := by
  unfold rtrim
  rw [← List.map_reverse, dropWhileWs_shape, List.map_reverse]

/-- trim commutes with the shape map. -/
theorem jsTrim_shape (l : Str) : jsTrim (l.map shapeN) = (jsTrim l).map shapeN := by
  unfold jsTrim
  rw [ltrim_shape, rtrim_shape]

/-- The whitespace-collapsing scanner commutes with the shape map. -/
theorem collapseGo_shape (l : Str) : ∀ b,
    collapseGo b (l.map shapeN) = (collapseGo b l).map shapeN := by
  induction l with
  | nil => intro b; rfl
  | cons c rest ih =>
    intro b
    simp only [List.map_cons, collapseGo, isWsN_shape]
    cases h : isWsN c with
    | true =>
      cases b <;> simp [h, ih, shapeN]
    | false => simp [h, ih]

/-- Punctuation removal commutes with the shape map. -/
theorem removePunct_shape (l : Str) :
    removePunct (l.map shapeN) = (removePunct l).map shapeN := by
  unfold removePunct
  induction l with
  | nil => rfl
  | cons c rest ih =>
    simp only [List.map_cons, List.filter_cons, isPunctN_shape]
    cases h : isPunctN c with
    | true => simpa [h] using ih
    | false => simp [h, ih]

/-- The date-shape test commutes with the shape map. -/
theorem dateTry_shape (l : Str) :
    dateTry (l.map shapeN) = (dateTry l).map (List.map shapeN) := by
  rcases l with _ | ⟨d1, _ | ⟨d2, _ | ⟨d3, _ | ⟨d4, _ | ⟨h1, _ | ⟨d5, _ | ⟨d6,
    _ | ⟨h2, _ | ⟨d7, _ | ⟨d8, rest⟩⟩⟩⟩⟩⟩⟩⟩⟩⟩ <;> try rfl
  simp only [List.map_cons, dateTry, isDigitN_shape, dash45_shape]
  split <;> rfl

/-- The date-replacement scanner commutes with the shape map. -/
theorem dateGo_shape : ∀ (fuel : Nat) (l : Str),
    dateGo fuel (l.map shapeN) = (dateGo fuel l).map shapeN := by
  intro fuel
  induction fuel with
  | zero => intro l; cases l <;> rfl
  | succ fuel ih =>
    intro l
    cases l with
    | nil => rfl
    | cons c rest =>
      have hd := dateTry_shape (c :: rest)
      simp only [List.map_cons] at hd
      simp only [List.map_cons, dateGo, hd]
      cases hdt : dateTry (c :: rest) with
      | none => simp [ih]
      | some rest2 =>
        simp only [hdt, Option.map_some]
        simp [ih, shapeN]

/-- The seeded date replacement commutes with the shape map. -/
theorem dateRep_shape (l : Str) :
    dateRep (l.map shapeN) = (dateRep l).map shapeN := by
  unfold dateRep
  rw [List.length_map, dateGo_shape]

/-- Whitespace collapsing commutes with the shape map. -/
theorem collapseWs_shape (l : Str) :
    collapseWs (l.map shapeN) = (collapseWs l).map shapeN := collapseGo_shape l false

/-- A character that is not a digit is fixed by the shape map. -/
theorem shapeN_of_not_digit (c : Nat) (h : isDigitN c = false) : shapeN c = c := by
  unfold isDigitN at h
  unfold shapeN
  rw [if_neg]
  exact of_decide_eq_false h

/-- The digit-run scanner is determined by the shape of its input. -/
theorem numGo_congr_of_shape : ∀ (x y : Str) (b : Bool),
    x.map shapeN = y.map shapeN → numGo b x = numGo b y := by
  intro x
  induction x with
  | nil =>
    intro y b h
    cases y with
    | nil => rfl
    | cons d ys => simp at h
  | cons c xs ih =>
    intro y b h
    cases y with
    | nil => simp at h
    | cons d ys =>
      simp only [List.map_cons, List.cons.injEq] at h
      obtain ⟨h1, h2⟩ := h
      have hdig : isDigitN c = isDigitN d := by
        rw [← isDigitN_shape c, h1, isDigitN_shape]
      simp only [numGo, hdig]
      cases hd : isDigitN d with
      | true =>
        cases b <;> simp [ih ys true h2]
      | false =>
        have hc : c = d := by
          rw [← shapeN_of_not_digit c (by rw [hdig, hd]),
            ← shapeN_of_not_digit d hd, h1]
        simp [hc, ih ys false h2]

/-- The normalized question is determined by the digit shape of the raw
question: substituting digits for digits at the same positions cannot change
the derived key material. -/
theorem normalizePrompt_congr_of_shape (p q : Str)
    (h : p.map shapeN = q.map shapeN) : normalizePrompt p = normalizePrompt q := by
  have key : ∀ r : Str, (r.map jsToLower).map shapeN =
      ((r.map shapeN).map jsToLower).map shapeN := by
    intro r
    induction r with
    | nil => rfl
    | cons a t iht =>
      simp only [List.map_cons, List.cons.injEq]
      exact ⟨(shape_lower_factor a).symm ▸ shape_lower_factor a, iht⟩
  unfold normalizePrompt
  apply numGo_congr_of_shape
  rw [← dateRep_shape, ← dateRep_shape, ← removePunct_shape, ← removePunct_shape,
    ← collapseWs_shape, ← collapseWs_shape, ← jsTrim_shape, ← jsTrim_shape,
    key p, key q, h]

/-- ltrim distributes over an append whose left part ends in non-whitespace. -/
theorem ltrim_append_mid (a : Nat) (ha : isWsN a = false) :
    ∀ (x y : Str), ltrim ((x ++ [a]) ++ y) = ltrim (x ++ [a]) ++ y := by
  intro x
  induction x with
  | nil =>
    intro y
    simp [ltrim, List.dropWhile_cons, ha]
  | cons c t ih =>
    intro y
    simp only [List.cons_append, ltrim, List.dropWhile_cons]
    cases h : isWsN c with
    | true => simpa [h, ltrim] using ih y
    | false => simp [h]

/-- ltrim keeps a non-whitespace last character in last position. -/
theorem ltrim_last (a : Nat) (ha : isWsN a = false) :
    ∀ x : Str, ∃ w, ltrim (x ++ [a]) = w ++ [a] := by
  intro x
  induction x with
  | nil => exact ⟨[], by simp [ltrim, List.dropWhile_cons, ha]⟩
  | cons c t ih =>
    simp only [List.cons_append, ltrim, List.dropWhile_cons]
    cases h : isWsN c with
    | true => simpa [h, ltrim] using ih
    | false => exact ⟨c :: t, by simp [h]⟩

/-- rtrim fixes a string ending in non-whitespace. -/
theorem rtrim_append_nonws (b : Nat) (hb : isWsN b = false) (y : Str) :
    rtrim (y ++ [b]) = y ++ [b] := by
  unfold rtrim
  simp [List.dropWhile_cons, hb]

/-- trim distributes over appending one non-whitespace character to a string
that already ends in non-whitespace. -/
theorem jsTrim_append_nonws (a b : Nat) (ha : isWsN a = false)
    (hb : isWsN b = false) (x : Str) :
    jsTrim ((x ++ [a]) ++ [b]) = jsTrim (x ++ [a]) ++ [b] := by
  unfold jsTrim
  rw [ltrim_append_mid a ha x [b], rtrim_append_nonws b hb]
  obtain ⟨w, hw⟩ := ltrim_last a ha x
  rw [hw, rtrim_append_nonws a ha]

/-- The whitespace-collapsing scanner distributes over appending a
non-whitespace character. -/
theorem collapseGo_append_nonws (u : Nat) (hu : isWsN u = false) :
    ∀ (l : Str) (b : Bool), collapseGo b (l ++ [u]) = collapseGo b l ++ [u] := by
  intro l
  induction l with
  | nil => intro b; simp [collapseGo, hu]
  | cons c t ih =>
    intro b
    simp only [List.cons_append, collapseGo]
    cases h : isWsN c with
    | true => cases b <;> simp [h, ih]
    | false => simp [h, ih]

/-- Punctuation removal deletes an appended punctuation character. -/
theorem removePunct_append_punct (u : Nat) (hu : isPunctN u = true) (l : Str) :
    removePunct (l ++ [u]) = removePunct l := by
  simp [removePunct, List.filter_append, hu]

/-- Appending one terminal punctuation character to a question that does not
end in whitespace leaves the derived cache key unchanged. -/
theorem generateKey_append_punct (x : Str) (a u : Nat) (language schemaHash : Str)
    (hu : isPunctN u = true) (ha : isWsN a = false) :
    generateKey ((x ++ [a]) ++ [u]) language schemaHash =
      generateKey (x ++ [a]) language schemaHash := by
  unfold generateKey
  have hnorm : normalizePrompt ((x ++ [a]) ++ [u]) = normalizePrompt (x ++ [a]) := by
    unfold normalizePrompt
    rw [List.map_append, List.map_append]
    simp only [List.map_cons, List.map_nil]
    rw [lower_punct_fix u hu]
    rw [show x.map jsToLower ++ [jsToLower a] =
      (x.map jsToLower) ++ [jsToLower a] from rfl]
    rw [jsTrim_append_nonws (jsToLower a) u (by rw [isWsN_lower]; exact ha)
      (punct_not_ws u hu)]
    rw [show ∀ l : Str, collapseWs (l ++ [u]) = collapseWs l ++ [u] from
      fun l => collapseGo_append_nonws u (punct_not_ws u hu) l false]
    rw [removePunct_append_punct u hu]
  rw [hnorm]

/-- C8 (amended): the cache key is invariant, for a fixed language and schema
fingerprint, under (1) any change of letter case and whitespace runs — two
questions with the same lowercased, trimmed, whitespace-collapsed form share
a key, which covers the specified case and whitespace-run differences;
(2) appending one terminal punctuation character, provided the question does
not end in whitespace; and (3) substituting digits for digits at the same
positions, which covers changing the digits of an ISO date or of a digit run
while keeping its length.  The provisos are forced by the counterexamples:
punctuation after whitespace and digit-run substitutions that change the
date shape produce different keys. -/
theorem c8_amended_normalization_equivalence (language schemaHash : Str) :
    (∀ p q : Str, collapseWs (jsTrim (p.map jsToLower)) =
        collapseWs (jsTrim (q.map jsToLower)) →
      generateKey p language schemaHash = generateKey q language schemaHash) ∧
    (∀ (x : Str) (a u : Nat), isPunctN u = true → isWsN a = false →
      generateKey ((x ++ [a]) ++ [u]) language schemaHash =
        generateKey (x ++ [a]) language schemaHash) ∧
    (∀ p q : Str, p.map shapeN = q.map shapeN →
      generateKey p language schemaHash = generateKey q language schemaHash) := by
  refine ⟨?_, ?_, ?_⟩
  · intro p q h
    unfold generateKey normalizePrompt
    rw [h]
  · intro x a u hu ha
    exact generateKey_append_punct x a u language schemaHash hu ha
  · intro p q h
    unfold generateKey
    rw [normalizePrompt_congr_of_shape p q h]

set_option maxRecDepth 4000 in
/-- C8 counterexample: two questions differing only in one digit run (2024
versus 202) derive different keys, because shortening the run destroys the
ISO date shape: one normalizes to the DATE token, the other to three NUM
tokens. -/
theorem c8_counterexample_digit_run :
    generateKey (str ("sales since 2024-01-15")) (str ("en")) (str ("h1")) ≠
      generateKey (str ("sales since 202-01-15")) (str ("en")) (str ("h1")) ∧
    normalizePrompt (str ("sales since 2024-01-15")) = str ("sales since DATE") ∧
    normalizePrompt (str ("sales since 202-01-15")) =
      str ("sales since NUM-NUM-NUM") := by
  decide

/-- Witness for the amended C8: the specification test pair for case and
whitespace, a terminal question mark, and a date-for-date substitution. -/
theorem c8_amended_witness :
    generateKey (str ("Show me all users")) (str ("en")) (str ("h1")) =
      generateKey (str ("show me   all users")) (str ("en")) (str ("h1")) ∧
    generateKey (str ("Show me all users") ++ [63]) (str ("en")) (str ("h1")) =
      generateKey (str ("Show me all users")) (str ("en")) (str ("h1")) ∧
    generateKey (str ("sales for 2024-01-01")) (str ("en")) (str ("h1")) =
      generateKey (str ("sales for 2024-06-30")) (str ("en")) (str ("h1")) := by
  have h := c8_amended_normalization_equivalence (str ("en")) (str ("h1"))
  refine ⟨h.1 _ _ (by decide), ?_, h.2.2 _ _ (by decide)⟩
  have h2 := h.2.1 (str ("Show me all user")) 115 63 (by decide) (by decide)
  have e1 : str ("Show me all user") ++ [115] = str ("Show me all users") := by
    decide
  rw [e1] at h2
  exact h2

end CyberMySQL
